import Mathlib

/-!
Verification of the gportal-python specification: the Query Builder and the
Paged Result Iterator of the G-Portal Catalogue Service client, together with
the SFTP password fallback documented in the README.

The repository snapshot ships only the README, the packaging metadata and the
example notebook; the Python package itself (gportal/search.py, gportal/sftp.py)
is not present.  The definitions below are therefore modelled from the spec
(sections 3, 4.1, 4.2, 5, 7 and 9) and from the README / notebook evidence,
as shallow executable Lean functions.
-/

namespace GPortal

/-- Error kinds of the client, from spec section 7: `InvalidQuery` (malformed
criteria, detected before any network call), `TransportFailure` (network/HTTP
failure during a page fetch), `DecodingFailure` (response does not match the
expected feature-collection shape). -/
inductive GPError where
  | invalidQuery
  | transportFailure
  | decodingFailure
  deriving DecidableEq, Repr

/-- A decoded `ResultPage` (spec section 3): the total match count reported by
the server together with the ordered feature records of this page.  Feature
records are opaque to the iterator, so the record type is a parameter. -/
structure Page (α : Type) where
  total : Nat
  features : List α
  deriving DecidableEq, Repr

/-- The Search Transport collaborator (spec section 6): given an offset it
returns a decoded feature collection or fails with a transport/decoding
error.  The query parameters (page size included) are fixed by the closure. -/
def Fetcher (α : Type) : Type := Nat → Except GPError (Page α)

/-- Outcome of one full traversal of `records()`: the records yielded to the
caller before the traversal ended, the trace of offsets at which page fetches
were issued (in order), and — when a page fetch failed — the error surfaced
to the caller at that point. -/
inductive TravResult (α : Type) where
  | ok (recs : List α) (trace : List Nat)
  | failed (recs : List α) (trace : List Nat) (e : GPError)
  deriving DecidableEq, Repr

/-- Records yielded by a traversal before it ended. -/
def TravResult.recs : TravResult α → List α
  | .ok rs _ => rs
  | .failed rs _ _ => rs

/-- Offsets of the page fetches issued by a traversal, in order. -/
def TravResult.trace : TravResult α → List Nat
  | .ok _ tr => tr
  | .failed _ tr _ => tr

/-- Prepend already-yielded records and already-issued fetch offsets in front
of the outcome of the rest of a traversal. -/
def TravResult.prepend (rs : List α) (tr : List Nat) : TravResult α → TravResult α
  | .ok rs' tr' => .ok (rs ++ rs') (tr ++ tr')
  | .failed rs' tr' e => .failed (rs ++ rs') (tr ++ tr') e

/-- Modelled from the spec: the pagination loop of `Search.products()` /
`records()` (spec section 4.2), whose Python source is not in the snapshot.
Starting from `offset`, repeatedly fetch a page, yield its features, advance
the offset by the number of records actually returned, and terminate when the
offset reaches the total match count reported by the page or when a fetched
page returns zero records; a fetch failure aborts the traversal and surfaces
the error.  `fuel` bounds the number of page fetches so the model is total;
`none` means the bound was hit before the loop terminated. -/
def recordsAux (fetch : Fetcher α) : Nat → Nat → Option (TravResult α)
  | 0, _ => none
  | fuel + 1, offset =>
    match fetch offset with
    | .error e => some (.failed [] [offset] e)
    | .ok page =>
      if page.features.isEmpty then
        some (.ok [] [offset])
      else if page.total ≤ offset + page.features.length then
        some (.ok page.features [offset])
      else
        match recordsAux fetch fuel (offset + page.features.length) with
        | none => none
        | some r => some (r.prepend page.features [offset])

/-- Modelled from the spec: one full traversal of `records()` — a fresh
paginated traversal starting from offset 0 (spec section 4.2). -/
def records (fetch : Fetcher α) (fuel : Nat) : Option (TravResult α) :=
  recordsAux fetch fuel 0

/-- A well-behaved Search Transport: the query matches `total` records, every
page fetch at offset `o` reports that total and returns the next
`min pageSize (total - o)` records.  Records are represented by their index
in the overall result sequence, so the page at offset `o` is
`List.range' o (min pageSize (total - o))`. -/
def wbFetch (total pageSize : Nat) : Fetcher Nat :=
  fun o => .ok ⟨total, List.range' o (min pageSize (total - o))⟩

/-- A transport that behaves like `wbFetch` below offset `m` but returns an
empty page from offset `m` on — the server-side inconsistency of spec
section 4.2 where a page comes back with zero records although the reported
total has not been reached. -/
def emptyFromFetch (total pageSize m : Nat) : Fetcher Nat :=
  fun o => if o < m then wbFetch total pageSize o else .ok ⟨total, []⟩

/-- A transport that behaves like `wbFetch` below offset `m` but fails with
error `e` from offset `m` on — a transport/decoding failure striking
mid-traversal. -/
def failFromFetch (total pageSize m : Nat) (e : GPError) : Fetcher Nat :=
  fun o => if o < m then wbFetch total pageSize o else .error e

/-- The page-fetch offsets of a complete well-behaved traversal:
`[0, P, 2*P, ...]`, one entry per page, `ceil(N/P)` pages in all. -/
def pageOffsets (N P : Nat) : List Nat :=
  (List.range ((N + P - 1) / P)).map (fun i => i * P)

/-- The suspension state of the lazy generator, from spec section 9: the
offset cursor, the not-yet-yielded records of the current page, and whether
the termination condition (offset reached the reported total, or an empty
page) has already been observed. -/
structure Cursor (α : Type) where
  offset : Nat
  buffer : List α
  finished : Bool
  deriving DecidableEq, Repr

/-- Start state of a fresh `records()` traversal: offset 0, nothing buffered. -/
def Cursor.start : Cursor α := ⟨0, [], false⟩

/-- Result of pulling once on the generator: the next record plus the resumed
state, normal end of sequence, or a surfaced fetch failure (which has no
resumed state — the traversal aborts). -/
inductive Pull (α : Type) where
  | record (r : α) (c : Cursor α)
  | endOfSeq
  | failure (e : GPError)
  deriving DecidableEq, Repr

/-- Modelled from the spec: one pull on the lazy generator behind `records()`
(spec sections 4.2, 5 and 9; the Python generator source is not in the
snapshot).  A buffered record is yielded without touching the transport; only
when the buffer is exhausted and termination has not been signalled is the
next page fetched (blocking, at the current offset), the offset advanced by
the number of records actually returned, and the termination flag set when
the advanced offset reaches the total reported by that page.  The second
component counts the page fetches issued by this pull (0 or 1). -/
def pull (fetch : Fetcher α) (c : Cursor α) : Pull α × Nat :=
  match c.buffer with
  | r :: rest => (.record r ⟨c.offset, rest, c.finished⟩, 0)
  | [] =>
    if c.finished then (.endOfSeq, 0)
    else
      match fetch c.offset with
      | .error e => (.failure e, 1)
      | .ok page =>
        match page.features with
        | [] => (.endOfSeq, 1)
        | r :: rest =>
          (.record r ⟨c.offset + rest.length + 1, rest,
            decide (page.total ≤ c.offset + rest.length + 1)⟩, 1)

/-- Final state after driving the generator a number of pulls. -/
inductive DriveEnd (α : Type) where
  | more (c : Cursor α)
  | ended
  | failed (e : GPError)
  deriving DecidableEq, Repr

/-- Drive the generator: perform up to `n` pulls, collecting the records
yielded, the total number of page fetches issued, and the final state. -/
def drive (fetch : Fetcher α) : Nat → Cursor α → List α × Nat × DriveEnd α
  | 0, c => ([], 0, .more c)
  | n + 1, c =>
    match pull fetch c with
    | (.record r c', k) =>
      let rest := drive fetch n c'
      (r :: rest.1, k + rest.2.1, rest.2.2)
    | (.endOfSeq, k) => ([], k, .ended)
    | (.failure e, k) => ([], k, .failed e)

/-- How many records have been fetched from a well-behaved transport once the
caller has consumed `m` records: the `ceil(m/P)` pages holding them, capped
at the total `N`. -/
def fetchedUpTo (N P m : Nat) : Nat := min N ((m + P - 1) / P * P)

/-- The generator state after the caller has consumed `m` records of a
well-behaved traversal (`wbFetch N P`): the unconsumed remainder of the last
fetched page is buffered, and termination has been signalled iff the fetched
prefix reached the total. -/
def wbCursor (N P m : Nat) : Cursor Nat :=
  ⟨fetchedUpTo N P m, List.range' m (fetchedUpTo N P m - m),
    decide (N ≤ fetchedUpTo N P m)⟩

/-- A built query parameter value: string or number representation
(spec section 4.1). -/
inductive ParamValue where
  | str (s : String)
  | num (n : Nat)
  deriving DecidableEq, Repr

/-- Modelled from the spec: the query object returned by `gportal.search`
(class `Search` in the notebook; its Python source is not in the snapshot):
the built parameters plus the memoized total match count, `none` until
`matched()` has issued its single count request (spec section 4.2). -/
structure Search where
  params : List (String × ParamValue)
  nMatched : Option Nat
  deriving DecidableEq, Repr

/-- A freshly built query object: no count request issued yet. -/
def mkSearch (params : List (String × ParamValue)) : Search := ⟨params, none⟩

/-- Modelled from the spec: `Search.matched()` (spec section 4.2; the Python
source is not in the snapshot) — return the memoized count when present;
otherwise issue exactly one count request to the remote (whose answer is
`remoteCount`), memoize it and return it.  The result carries the returned
count, the updated query object, and the number of requests this call
issued. -/
def matched (remoteCount : Nat) (s : Search) : Nat × Search × Nat :=
  match s.nMatched with
  | some n => (n, s, 0)
  | none => (remoteCount, { s with nMatched := some remoteCount }, 1)

/-- Modelled from the spec: `records()` on a query object performs a fresh
paginated traversal from offset 0 against the transport instantiated with the
built parameters; it reads nothing from the query object except the built
parameters (spec sections 4.2 and 5). -/
def productsOf (transport : List (String × ParamValue) → Fetcher Nat) (s : Search)
    (fuel : Nat) : Option (TravResult Nat) :=
  records (transport s.params) fuel

/-- A timestamp of the search criteria, as ISO-8601 calendar fields. -/
structure Timestamp where
  year : Nat
  month : Nat
  day : Nat
  hour : Nat
  minute : Nat
  second : Nat
  deriving DecidableEq, Repr

/-- Chronological order of timestamps: lexicographic on the calendar fields,
realized by packing them into a single number with non-overlapping radices. -/
def Timestamp.key (t : Timestamp) : Nat :=
  ((((t.year * 13 + t.month) * 32 + t.day) * 24 + t.hour) * 60 + t.minute) * 60
    + t.second

/-- Zero-padded two-digit decimal field. -/
def pad2 (n : Nat) : String :=
  if n < 10 then "0" ++ toString n else toString n

/-- Zero-padded four-digit decimal field. -/
def pad4 (n : Nat) : String :=
  if n < 10 then "000" ++ toString n
  else if n < 100 then "00" ++ toString n
  else if n < 1000 then "0" ++ toString n
  else toString n

/-- The fixed ISO-8601 serialization `YYYY-MM-DDTHH:MM:SS` used for the
`startTime` and `endTime` parameters (notebook cell: `'startTime':
'2023-01-01T00:00:00'`). -/
def Timestamp.toISO (t : Timestamp) : String :=
  pad4 t.year ++ "-" ++ pad2 t.month ++ "-" ++ pad2 t.day ++ "T" ++
    pad2 t.hour ++ ":" ++ pad2 t.minute ++ ":" ++ pad2 t.second

/-- `SearchCriteria` (spec section 3): dataset identifier list, optional time
range, optional bounding box `(west, south, east, north)`, optional page-size
override, and extra caller-supplied parameters. -/
structure SearchCriteria where
  datasetIds : List String
  startTime : Option Timestamp
  endTime : Option Timestamp
  bbox : Option (List Int)
  count : Option Nat
  extraParams : List (String × ParamValue)
  deriving Repr

/-- A bounding box is well-formed iff it is exactly 4 numbers
`[west, south, east, north]` with `west ≤ east` and `south ≤ north`
(spec section 4.1). -/
def bboxValid : List Int → Bool
  | [w, s, e, n] => decide (w ≤ e ∧ s ≤ n)
  | _ => false

/-- The bounding box criterion, when present, must be well-formed. -/
def bboxOk (c : SearchCriteria) : Bool :=
  match c.bbox with
  | some b => bboxValid b
  | none => true

/-- When both ends of the time range are given, the start must not be after
the end (spec section 4.1). -/
def timeOrderOk (c : SearchCriteria) : Bool :=
  match c.startTime, c.endTime with
  | some ts, some te => decide (ts.key ≤ te.key)
  | _, _ => true

/-- Comma-joined serialization, used for dataset IDs and the bounding box. -/
def joinComma (xs : List String) : String := String.intercalate "," xs

/-- The bounding box parameter value: the comma-joined 4-tuple
(notebook cell: `'bbox': '140,30,145,35'`). -/
def serializeBBox (b : List Int) : String := joinComma (b.map toString)

/-- The flat parameter mapping for well-formed criteria, in the order of the
notebook repr: `datasetId`, `bbox`, `startTime`, `endTime`, `count` (page
size, defaulting to 100), then the extra caller-supplied parameters. -/
def builtParams (c : SearchCriteria) : List (String × ParamValue) :=
  (if c.datasetIds.isEmpty then []
    else [("datasetId", ParamValue.str (joinComma c.datasetIds))]) ++
  (match c.bbox with
    | some b => [("bbox", ParamValue.str (serializeBBox b))]
    | none => []) ++
  (match c.startTime with
    | some t => [("startTime", ParamValue.str t.toISO)]
    | none => []) ++
  (match c.endTime with
    | some t => [("endTime", ParamValue.str t.toISO)]
    | none => []) ++
  [("count", ParamValue.num (c.count.getD 100))] ++
  c.extraParams

/-- Modelled from the spec: `build(criteria)` — the Query Builder (spec
section 4.1; the Python source is not in the snapshot).  Validates the
bounding box and the time ordering and fails with `InvalidQuery` when either
is violated; otherwise serializes the criteria into the flat parameter
mapping.  Purely a transform: no transport is consulted. -/
def build (c : SearchCriteria) : Except GPError (List (String × ParamValue)) :=
  if bboxOk c then
    if timeOrderOk c then .ok (builtParams c)
    else .error .invalidQuery
  else .error .invalidQuery

/-- Modelled from the spec / README: the password used by the SFTP download
path — the explicitly assigned process-wide `gportal.password` when set,
otherwise the value of the `GPORTAL_PASSWORD` environment variable (README
quickstart; gportal/sftp.py is not in the snapshot). -/
def effectivePassword (explicitPw : Option String) (env : String → Option String) :
    Option String :=
  match explicitPw with
  | some p => some p
  | none => env "GPORTAL_PASSWORD"

theorem TravResult.prepend_nil (r : TravResult α) : r.prepend [] [] = r := by
  cases r <;> simp [TravResult.prepend]

theorem TravResult.prepend_prepend (rs₁ rs₂ : List α) (tr₁ tr₂ : List Nat)
    (r : TravResult α) :
    (r.prepend rs₂ tr₂).prepend rs₁ tr₁ = r.prepend (rs₁ ++ rs₂) (tr₁ ++ tr₂) := by
  cases r <;> simp [TravResult.prepend]

theorem recordsAux_fetch_error (fetch : Fetcher α) (fuel offset : Nat) (e : GPError)
    (hf : fetch offset = .error e) :
    recordsAux fetch (fuel + 1) offset = some (.failed [] [offset] e) := by
  simp [recordsAux, hf]

theorem recordsAux_fetch_empty (fetch : Fetcher α) (fuel offset : Nat) (page : Page α)
    (hf : fetch offset = .ok page) (he : page.features = []) :
    recordsAux fetch (fuel + 1) offset = some (.ok [] [offset]) := by
  simp [recordsAux, hf, he]

theorem recordsAux_fetch_last (fetch : Fetcher α) (fuel offset : Nat) (page : Page α)
    (hf : fetch offset = .ok page) (hne : page.features ≠ [])
    (hend : page.total ≤ offset + page.features.length) :
    recordsAux fetch (fuel + 1) offset = some (.ok page.features [offset]) := by
  simp [recordsAux, hf, List.isEmpty_eq_false.2 hne, hend]

theorem recordsAux_fetch_ok (fetch : Fetcher α) (fuel offset : Nat) (page : Page α)
    (hf : fetch offset = .ok page) (hne : page.features ≠ [])
    (hcont : offset + page.features.length < page.total) :
    recordsAux fetch (fuel + 1) offset =
      (recordsAux fetch fuel (offset + page.features.length)).map
        (fun r => r.prepend page.features [offset]) := by
  simp only [recordsAux, hf, List.isEmpty_eq_false.2 hne, Bool.false_eq_true, if_false,
    Nat.not_le.2 hcont]
  cases recordsAux fetch fuel (offset + page.features.length) <;> simp

theorem wbFetch_eq (N P o : Nat) (h : P ≤ N - o) :
    wbFetch N P o = .ok ⟨N, List.range' o P⟩ := by
  simp [wbFetch, Nat.min_eq_left h]

theorem wbFetch_eq_last (N P o : Nat) (h : N - o ≤ P) :
    wbFetch N P o = .ok ⟨N, List.range' o (N - o)⟩ := by
  simp [wbFetch, Nat.min_eq_right h]

/-- Offsets strictly below `m = o + g*P` are traversed in `g` full pages of
size `P`: if the transport agrees with `wbFetch N P` below `m` and the
traversal continues somehow from offset `m`, then the whole traversal from
offset `o` yields the records `[o, m)` followed by whatever the tail does,
fetching at `o, o+P, ..., o+(g-1)*P` first. -/
theorem recordsAux_wb_upTo (N P m : Nat) (f : Fetcher Nat) (hP : 0 < P) (hmN : m < N)
    (hagree : ∀ o, o < m → f o = wbFetch N P o) (g : Nat) :
    ∀ fuel o, o + g * P = m →
      ∀ r, recordsAux f fuel m = some r →
        recordsAux f (fuel + g) o =
          some (r.prepend (List.range' o (m - o))
            ((List.range g).map (fun i => o + i * P))) := by
  induction g with
  | zero =>
    intro fuel o ho r hr
    have hom : o = m := by omega
    subst hom
    simpa [TravResult.prepend_nil] using hr
  | succ g ih =>
    intro fuel o ho r hr
    have hoP : o + P + g * P = m := by rw [Nat.succ_mul] at ho; omega
    have hom : o + P ≤ m := by omega
    have hfo : f o = .ok ⟨N, List.range' o P⟩ := by
      rw [hagree o (by omega), wbFetch_eq N P o (by omega)]
    have hne : (List.range' o P : List Nat) ≠ [] := by
      simp only [ne_eq, List.range'_eq_nil]
      omega
    have hlen : (List.range' o P : List Nat).length = P := List.length_range' ..
    have hstep := recordsAux_fetch_ok f (fuel + g) o ⟨N, List.range' o P⟩ hfo hne
      (by simp only [hlen]; omega)
    have hih := ih fuel (o + P) hoP r hr
    show recordsAux f (fuel + g + 1) o = _
    rw [hstep]
    simp only [hlen, hih, Option.map_some', TravResult.prepend_prepend]
    have hrs : List.range' o P ++ List.range' (o + P) (m - (o + P)) =
        List.range' o (m - o) := by
      have happ := List.range'_append o P (m - (o + P)) 1
      simp only [Nat.one_mul] at happ
      rw [happ]
      congr 1
      omega
    have htr : o :: (List.range g).map (fun i => o + P + i * P) =
        (List.range (g + 1)).map (fun i => o + i * P) := by
      rw [List.range_succ_eq_map, List.map_cons, List.map_map]
      congr 1
      · omega
      · congr 1
        funext i
        simp only [Function.comp, Nat.succ_mul, Nat.succ_eq_add_one]
        omega
    rw [hrs, List.singleton_append, htr]

/-- A complete well-behaved traversal: `records()` over a transport that
matches `N > 0` records served in pages of `P` yields exactly the `N` records
in order, fetching exactly the pages at offsets `0, P, ..., ((N-1)/P)*P`. -/
theorem records_wb (N P : Nat) (hN : 0 < N) (hP : 0 < P) :
    records (wbFetch N P) N = some (.ok (List.range N) (pageOffsets N P)) := by
  have hg := Nat.div_add_mod (N - 1) P
  have hmod := Nat.mod_lt (N - 1) hP
  have hcomm : P * ((N - 1) / P) = (N - 1) / P * P := Nat.mul_comm _ _
  have hgle : (N - 1) / P ≤ N - 1 := Nat.div_le_self _ _
  have hmlt : (N - 1) / P * P < N := by omega
  have hbase : recordsAux (wbFetch N P) (N - 1 - (N - 1) / P + 1) ((N - 1) / P * P) =
      some (.ok (List.range' ((N - 1) / P * P) (N - (N - 1) / P * P))
        [(N - 1) / P * P]) := by
    apply recordsAux_fetch_last _ _ _ _ (wbFetch_eq_last N P _ (by omega))
    · simp only [ne_eq, List.range'_eq_nil]
      omega
    · simp only [List.length_range']
      omega
  have hup := recordsAux_wb_upTo N P ((N - 1) / P * P) (wbFetch N P) hP hmlt
    (fun o _ => rfl) ((N - 1) / P) (N - 1 - (N - 1) / P + 1) 0 (by omega) _ hbase
  have hfuel : N - 1 - (N - 1) / P + 1 + (N - 1) / P = N := by omega
  rw [hfuel] at hup
  rw [records, hup]
  simp only [TravResult.prepend, Nat.sub_zero]
  have hrs : List.range' 0 ((N - 1) / P * P) ++
      List.range' ((N - 1) / P * P) (N - (N - 1) / P * P) = List.range N := by
    have happ := List.range'_append 0 ((N - 1) / P * P) (N - (N - 1) / P * P) 1
    simp only [Nat.one_mul, Nat.zero_add] at happ
    rw [happ, List.range_eq_range']
    congr 1
    omega
  have hdiv : (N + P - 1) / P = (N - 1) / P + 1 := by
    have h1 : N + P - 1 = N - 1 + P := by omega
    rw [h1, Nat.add_div_right _ hP]
  have htr : (List.range ((N - 1) / P)).map (fun i => 0 + i * P) ++
      [(N - 1) / P * P] = pageOffsets N P := by
    simp only [Nat.zero_add, pageOffsets, hdiv, List.range_succ, List.map_append,
      List.map_cons, List.map_nil]
  rw [hrs, htr]

/-- C1 (amended): for a well-behaved query whose first page fetch reports a
total of `N ≥ 1` records and whose page size is `P ≥ 1`, one full traversal
of `records()` issues exactly `ceil(N/P)` page fetches — at the offsets
`0, P, 2P, ...` — and yields exactly the `N` records, never more and never
fewer.  (For `N = 0` the traversal still issues one page fetch, so the
unrestricted `ceil(N/P)` count of the original claim fails there; see the
counterexample.) -/
theorem records_complete_traversal (N P : Nat) (hN : 0 < N) (hP : 0 < P) :
    records (wbFetch N P) N = some (.ok (List.range N) (pageOffsets N P)) ∧
    (List.range N).length = N ∧
    (pageOffsets N P).length = (N + P - 1) / P := by
  refine ⟨records_wb N P hN hP, List.length_range N, ?_⟩
  simp [pageOffsets]

/-- Witness for C1 at the spec example: total 250, page size 100 — three page
fetches yielding the 250 records. -/
theorem records_complete_traversal_witness :
    records (wbFetch 250 100) 250 =
      some (.ok (List.range 250) (pageOffsets 250 100)) ∧
    (List.range 250).length = 250 ∧
    (pageOffsets 250 100).length = (250 + 100 - 1) / 100 :=
  records_complete_traversal 250 100 (by decide) (by decide)

/-- C1 counterexample: when the first page fetch reports a total of `N = 0`
(page size 100), the traversal still issues that one page fetch — its fetch
trace is `[0]`, of length 1 — while `ceil(0/100) = 0`, so no traversal
outcome has the `ceil(N/P)` page fetches the claim demands at `N = 0`. -/
theorem records_total_zero_cex :
    (records (wbFetch 0 100) 5).map TravResult.trace = some [0] ∧
    ¬ ∃ r, records (wbFetch 0 100) 5 = some r ∧
      r.trace.length = (0 + 100 - 1) / 100 := by
  refine ⟨rfl, ?_⟩
  rintro ⟨r, hr, hlen⟩
  have h : records (wbFetch 0 100) 5 = some (.ok [] [0]) := rfl
  rw [h, Option.some.injEq] at hr
  rw [← hr] at hlen
  simp [TravResult.trace] at hlen

/-- C4: the offset cursor advances by the number of records actually
returned, not by the requested page size: when the transport serves pages of
only `Q` records although `P > Q` was requested, each returned count is
short of the request, yet the traversal continues fetching at the advanced
offsets `0, Q, 2Q, ...` until all `N` records are yielded. -/
theorem records_short_page_advances (N P Q : Nat) (hQ : 0 < Q) (hQP : Q < P)
    (hN : 0 < N) :
    records (wbFetch N Q) N = some (.ok (List.range N) (pageOffsets N Q)) ∧
    pageOffsets N Q = (List.range ((N + Q - 1) / Q)).map (fun i => i * Q) :=
  ⟨records_wb N Q hN hQ, rfl⟩

/-- Witness for C4: 250 records requested in pages of 100, served in short
pages of 30 — the traversal fetches at offsets 0, 30, ..., 240 and still
yields all 250 records. -/
theorem records_short_page_advances_witness :
    records (wbFetch 250 30) 250 =
      some (.ok (List.range 250) (pageOffsets 250 30)) ∧
    pageOffsets 250 30 = (List.range ((250 + 30 - 1) / 30)).map (fun i => i * 30) :=
  records_short_page_advances 250 100 30 (by decide) (by decide) (by decide)

/-- C3: when the page fetched at offset `g*P` comes back with zero records
although that offset is still below the reported total `N`, the traversal
terminates normally — the outcome is `ok`, no error — having yielded exactly
the `g*P` records of the preceding pages, fewer than the reported total. -/
theorem records_zero_page_stops (N P g : Nat) (hP : 0 < P) (hm : g * P < N) :
    records (emptyFromFetch N P (g * P)) (g + 1) =
      some (.ok (List.range (g * P)) ((List.range (g + 1)).map (fun i => i * P))) ∧
    (List.range (g * P)).length < N := by
  have hagree : ∀ o, o < g * P → emptyFromFetch N P (g * P) o = wbFetch N P o := by
    intro o ho
    simp [emptyFromFetch, ho]
  have hbase : recordsAux (emptyFromFetch N P (g * P)) (0 + 1) (g * P) =
      some (.ok [] [g * P]) := by
    apply recordsAux_fetch_empty _ _ _ ⟨N, []⟩ _ rfl
    simp [emptyFromFetch]
  have hup := recordsAux_wb_upTo N P (g * P) _ hP hm hagree g (0 + 1) 0 (by omega)
    _ hbase
  have hfuel : 0 + 1 + g = g + 1 := by omega
  rw [hfuel] at hup
  constructor
  · rw [records, hup]
    simp only [TravResult.prepend, List.append_nil, Nat.sub_zero, Nat.zero_add,
      List.range_succ, List.map_append, List.map_cons, List.map_nil,
      List.range_eq_range']
  · simp only [List.length_range]
    exact hm

/-- Witness for C3: total reported 250, page size 100, but the page at offset
100 comes back empty — the traversal ends normally with the 100 records of
the first page, fewer than 250. -/
theorem records_zero_page_stops_witness :
    records (emptyFromFetch 250 100 (1 * 100)) (1 + 1) =
      some (.ok (List.range (1 * 100))
        ((List.range (1 + 1)).map (fun i => i * 100))) ∧
    (List.range (1 * 100)).length < 250 :=
  records_zero_page_stops 250 100 1 (by decide) (by decide)

/-- C6: a transport or decoding failure on the page fetch at offset `g*P`
aborts the traversal with exactly that error: the records yielded to the
caller are exactly those of the `g` preceding pages, the failing offset is
fetched exactly once — no retry — and no page beyond it is fetched; the
outcome carries the surfaced error and no continuation, so nothing is cached
for a later traversal. -/
theorem records_failure_aborts (N P g : Nat) (e : GPError) (hP : 0 < P)
    (hm : g * P < N) :
    records (failFromFetch N P (g * P) e) (g + 1) =
      some (.failed (List.range (g * P))
        ((List.range (g + 1)).map (fun i => i * P)) e) ∧
    ((List.range (g + 1)).map (fun i => i * P)).length = g + 1 := by
  have hagree : ∀ o, o < g * P → failFromFetch N P (g * P) e o = wbFetch N P o := by
    intro o ho
    simp [failFromFetch, ho]
  have hbase : recordsAux (failFromFetch N P (g * P) e) (0 + 1) (g * P) =
      some (.failed [] [g * P] e) := by
    apply recordsAux_fetch_error
    simp [failFromFetch]
  have hup := recordsAux_wb_upTo N P (g * P) _ hP hm hagree g (0 + 1) 0 (by omega)
    _ hbase
  have hfuel : 0 + 1 + g = g + 1 := by omega
  rw [hfuel] at hup
  constructor
  · rw [records, hup]
    simp only [TravResult.prepend, List.append_nil, Nat.sub_zero, Nat.zero_add,
      List.range_succ, List.map_append, List.map_cons, List.map_nil,
      List.range_eq_range']
  · simp only [List.length_map, List.length_range]

/-- Witness for C6: with 250 matches and page size 100, a decoding failure on
the page at offset 200 yields the 200 records of the two preceding pages and
then surfaces the failure, after exactly 3 page fetches. -/
theorem records_failure_aborts_witness :
    records (failFromFetch 250 100 (2 * 100) GPError.decodingFailure) (2 + 1) =
      some (.failed (List.range (2 * 100))
        ((List.range (2 + 1)).map (fun i => i * 100)) GPError.decodingFailure) ∧
    ((List.range (2 + 1)).map (fun i => i * 100)).length = 2 + 1 :=
  records_failure_aborts 250 100 2 GPError.decodingFailure (by decide) (by decide)

/-- Whenever a traversal step at offset `o` produces a result, its fetch
trace starts with `o`: the very first page request of the traversal is issued
at its starting offset. -/
theorem recordsAux_first_offset (fetch : Fetcher α) (fuel o : Nat) (r : TravResult α)
    (hr : recordsAux fetch (fuel + 1) o = some r) : ∃ t, r.trace = o :: t := by
  simp only [recordsAux] at hr
  cases hf : fetch o with
  | error e =>
    rw [hf] at hr
    simp only [Option.some.injEq] at hr
    exact ⟨[], by rw [← hr]; rfl⟩
  | ok page =>
    rw [hf] at hr
    by_cases hemp : page.features.isEmpty
    · simp only [hemp, if_true] at hr
      simp only [Option.some.injEq] at hr
      exact ⟨[], by rw [← hr]; rfl⟩
    · simp only [hemp, Bool.false_eq_true, if_false] at hr
      by_cases hend : page.total ≤ o + page.features.length
      · simp only [if_pos hend, Option.some.injEq] at hr
        exact ⟨[], by rw [← hr]; rfl⟩
      · simp only [if_neg hend] at hr
        cases hrec : recordsAux fetch fuel (o + page.features.length) with
        | none => rw [hrec] at hr; cases hr
        | some r' =>
          rw [hrec] at hr
          simp only [Option.some.injEq] at hr
          refine ⟨r'.trace, ?_⟩
          rw [← hr]
          cases r' <;> simp [TravResult.prepend, TravResult.trace]

/-- C2: on a freshly built query object the first `matched()` call issues
exactly one count request and returns the total reported by the remote; a
later `matched()` call on the resulting query object issues no request and
returns the same memoized value, even if the remote would by then report a
different total. -/
theorem matched_memoizes (p : List (String × ParamValue)) (c c' : Nat) :
    matched c (mkSearch p) = (c, ⟨p, some c⟩, 1) ∧
    matched c' (matched c (mkSearch p)).2.1 = (c, ⟨p, some c⟩, 0) :=
  ⟨rfl, rfl⟩

/-- C8: `records()` keeps no traversal state on the query object — two query
objects with the same built parameters (whether or not a count was memoized)
produce identical traversals against the same transport — and every
traversal is fresh: its first page request is issued at offset 0. -/
theorem products_fresh_traversal (transport : List (String × ParamValue) → Fetcher Nat)
    (p : List (String × ParamValue)) (n₁ n₂ : Option Nat) (fuel : Nat) :
    productsOf transport ⟨p, n₁⟩ fuel = productsOf transport ⟨p, n₂⟩ fuel ∧
    ∀ r, productsOf transport ⟨p, n₁⟩ (fuel + 1) = some r → ∃ t, r.trace = 0 :: t :=
  ⟨rfl, fun r hr => recordsAux_first_offset (transport p) fuel 0 r hr⟩

/-- Witness for C8: a query for 8 matches with page size 100, traversed from
a fresh query object and from one with the count 8 already memoized, giving
identical results; the (single) page request of the traversal is at
offset 0. -/
theorem products_fresh_traversal_witness :
    (productsOf (fun _ => wbFetch 8 100) ⟨[], none⟩ 8 =
      productsOf (fun _ => wbFetch 8 100) ⟨[], some 8⟩ 8) ∧
    ∃ t, (TravResult.ok (List.range 8) [0]).trace = 0 :: t :=
  ⟨(products_fresh_traversal (fun _ => wbFetch 8 100) [] none (some 8) 8).1,
   (products_fresh_traversal (fun _ => wbFetch 8 100) [] none (some 8) 7).2
     (TravResult.ok (List.range 8) [0]) (by decide)⟩

/-- C5: building a query with a malformed bounding box — not exactly 4
numbers, or west > east, or south > north — or with a start time after the
end time fails with `InvalidQuery`; the builder consults no transport, and
with such criteria it never returns a parameter mapping. -/
theorem build_invalid_criteria (c : SearchCriteria) :
    (∀ w s e n, c.bbox = some [w, s, e, n] → (e < w ∨ n < s) →
      build c = .error .invalidQuery) ∧
    (∀ b, c.bbox = some b → b.length ≠ 4 → build c = .error .invalidQuery) ∧
    (∀ ts te, c.startTime = some ts → c.endTime = some te → te.key < ts.key →
      build c = .error .invalidQuery) ∧
    (∀ ps, build c = .ok ps → bboxOk c = true ∧ timeOrderOk c = true) := by
  refine ⟨?_, ?_, ?_, ?_⟩
  · intro w s e n hb hbad
    have hv : bboxValid [w, s, e, n] = false := by
      simp only [bboxValid, decide_eq_false_iff_not]
      omega
    have hok : bboxOk c = false := by simp [bboxOk, hb, hv]
    simp [build, hok]
  · intro b hb hlen
    have hv : bboxValid b = false := by
      rcases b with _ | ⟨w, _ | ⟨s, _ | ⟨e, _ | ⟨n, _ | ⟨x, rest⟩⟩⟩⟩⟩ <;>
        simp_all [bboxValid]
    have hok : bboxOk c = false := by simp [bboxOk, hb, hv]
    simp [build, hok]
  · intro ts te hts hte ht
    have htime : timeOrderOk c = false := by
      simp only [timeOrderOk, hts, hte, decide_eq_false_iff_not]
      omega
    cases hok : bboxOk c <;> simp [build, hok, htime]
  · intro ps hps
    by_cases hok : bboxOk c
    · by_cases htime : timeOrderOk c
      · exact ⟨hok, htime⟩
      · simp [build, hok, htime] at hps
    · simp [build, hok] at hps

/-- Witness for C5 at the spec examples: bounding box `[140, 35, 130, 30]`
(west > east) fails with `InvalidQuery`, and so does a start time after the
end time. -/
theorem build_invalid_criteria_witness :
    build ⟨["10002002"], none, none, some [140, 35, 130, 30], none, []⟩ =
      .error .invalidQuery ∧
    build ⟨["10002002"], some ⟨2023, 3, 25, 0, 0, 0⟩, some ⟨2023, 3, 24, 0, 0, 0⟩,
      none, none, []⟩ = .error .invalidQuery :=
  ⟨(build_invalid_criteria _).1 140 35 130 30 rfl (by decide),
   (build_invalid_criteria _).2.2.1 ⟨2023, 3, 25, 0, 0, 0⟩ ⟨2023, 3, 24, 0, 0, 0⟩
     rfl rfl (by decide)⟩

/-- C7: for well-formed criteria `build` returns the flat parameter mapping
without consulting any transport: the bounding box is serialized as the
comma-joined 4-tuple, both timestamps are serialized in the fixed ISO-8601
form `YYYY-MM-DDTHH:MM:SS`, and the page-size parameter `count` defaults to
100 when the caller does not override it. -/
theorem build_valid_criteria (c : SearchCriteria) (w s e n : Int)
    (ts te : Timestamp) (hb : c.bbox = some [w, s, e, n]) (hwe : w ≤ e)
    (hsn : s ≤ n) (hts : c.startTime = some ts) (hte : c.endTime = some te)
    (ht : ts.key ≤ te.key) (hc : c.count = none) :
    build c = .ok (builtParams c) ∧
    (builtParams c).lookup "bbox" =
      some (.str (joinComma [toString w, toString s, toString e, toString n])) ∧
    (builtParams c).lookup "startTime" = some (.str ts.toISO) ∧
    (builtParams c).lookup "endTime" = some (.str te.toISO) ∧
    (builtParams c).lookup "count" = some (.num 100) := by
  have hok : bboxOk c = true := by
    simp only [bboxOk, hb, bboxValid, decide_eq_true_eq]
    exact ⟨hwe, hsn⟩
  have htime : timeOrderOk c = true := by
    simp only [timeOrderOk, hts, hte, decide_eq_true_eq]
    exact ht
  refine ⟨by simp [build, hok, htime], ?_, ?_, ?_, ?_⟩ <;>
    cases hd : c.datasetIds.isEmpty <;>
      simp [builtParams, hb, hts, hte, hc, hd, serializeBBox, List.lookup]

/-- Witness for C7 at the notebook example: dataset 10002002, time range
2023-01-01T00:00:00 to 2023-01-01T23:59:59, bounding box 140,30,145,35, no
page-size override. -/
theorem build_valid_criteria_witness :
    build ⟨["10002002"], some ⟨2023, 1, 1, 0, 0, 0⟩, some ⟨2023, 1, 1, 23, 59, 59⟩,
        some [140, 30, 145, 35], none, []⟩ =
      .ok (builtParams ⟨["10002002"], some ⟨2023, 1, 1, 0, 0, 0⟩,
        some ⟨2023, 1, 1, 23, 59, 59⟩, some [140, 30, 145, 35], none, []⟩) ∧
    (builtParams ⟨["10002002"], some ⟨2023, 1, 1, 0, 0, 0⟩,
        some ⟨2023, 1, 1, 23, 59, 59⟩, some [140, 30, 145, 35], none, []⟩).lookup
      "bbox" = some (.str (joinComma [toString (140 : Int), toString (30 : Int),
        toString (145 : Int), toString (35 : Int)])) ∧
    (builtParams ⟨["10002002"], some ⟨2023, 1, 1, 0, 0, 0⟩,
        some ⟨2023, 1, 1, 23, 59, 59⟩, some [140, 30, 145, 35], none, []⟩).lookup
      "startTime" = some (.str (Timestamp.toISO ⟨2023, 1, 1, 0, 0, 0⟩)) ∧
    (builtParams ⟨["10002002"], some ⟨2023, 1, 1, 0, 0, 0⟩,
        some ⟨2023, 1, 1, 23, 59, 59⟩, some [140, 30, 145, 35], none, []⟩).lookup
      "endTime" = some (.str (Timestamp.toISO ⟨2023, 1, 1, 23, 59, 59⟩)) ∧
    (builtParams ⟨["10002002"], some ⟨2023, 1, 1, 0, 0, 0⟩,
        some ⟨2023, 1, 1, 23, 59, 59⟩, some [140, 30, 145, 35], none, []⟩).lookup
      "count" = some (.num 100) :=
  build_valid_criteria _ 140 30 145 35 ⟨2023, 1, 1, 0, 0, 0⟩
    ⟨2023, 1, 1, 23, 59, 59⟩ rfl (by decide) (by decide) rfl rfl (by decide) rfl

/-- C10: when the process-wide password has not been set explicitly, the SFTP
download path uses the value of the `GPORTAL_PASSWORD` environment variable
as the password; when it has been set explicitly, the explicit value wins. -/
theorem effectivePassword_env_fallback (env : String → Option String) :
    effectivePassword none env = env "GPORTAL_PASSWORD" ∧
    ∀ p, effectivePassword (some p) env = some p :=
  ⟨rfl, fun _ => rfl⟩

/-- One pull on the generator over a well-behaved transport, in the state
reached after `m < N` records have been consumed: the pull yields record `m`,
moves to the state for `m + 1` consumed records, and issues a page fetch
exactly when the number of fetched pages grows from `ceil(m/P)` to
`ceil((m+1)/P)` — that is, only when the buffered page is exhausted. -/
theorem pull_wb (N P m : Nat) (hP : 0 < P) (hm : m < N) :
    pull (wbFetch N P) (wbCursor N P m) =
      (.record m (wbCursor N P (m + 1)),
        (m + 1 + P - 1) / P - (m + P - 1) / P) := by
  have hqr := Nat.div_add_mod m P
  have hrP : m % P < P := Nat.mod_lt m hP
  by_cases hr0 : m % P = 0
  · -- at a page boundary: the buffer is exhausted, this pull fetches a page
    have hP1 : (P - 1) / P = 0 := Nat.div_eq_of_lt (by omega)
    have hPP : P / P = 1 := Nat.div_self hP
    have hceilm : (m + P - 1) / P = m / P := by
      have h1 : m + P - 1 = P * (m / P) + (P - 1) := by omega
      rw [h1, Nat.mul_add_div hP, hP1, Nat.add_zero]
    have hceilm1 : (m + 1 + P - 1) / P = m / P + 1 := by
      have h1 : m + 1 + P - 1 = P * (m / P) + P := by omega
      rw [h1, Nat.mul_add_div hP, hPP]
    have hmul : m / P * P = m := by
      have h2 := Nat.mul_comm (m / P) P
      omega
    have hE : fetchedUpTo N P m = m := by
      rw [fetchedUpTo, hceilm, hmul]
      exact Nat.min_eq_right (Nat.le_of_lt hm)
    have hmul1 : (m / P + 1) * P = m + P := by
      have h2 : (m / P + 1) * P = m / P * P + P := by ring
      omega
    have hE1 : fetchedUpTo N P (m + 1) = m + min P (N - m) := by
      rw [fetchedUpTo, hceilm1, hmul1]
      omega
    have hfin : decide (N ≤ m) = false := decide_eq_false (by omega)
    have hcons : List.range' m (min P (N - m)) =
        m :: List.range' (m + 1) (min P (N - m) - 1) := by
      conv_lhs => rw [show min P (N - m) = min P (N - m) - 1 + 1 from by omega]
      rw [List.range'_succ]
    rw [wbCursor, hE, Nat.sub_self, hfin]
    simp only [pull, wbFetch, hcons, List.range'_zero, Bool.false_eq_true, if_false,
      List.length_range']
    rw [show m + (min P (N - m) - 1) + 1 = m + min P (N - m) from by omega]
    rw [wbCursor, hE1]
    rw [show m + min P (N - m) - (m + 1) = min P (N - m) - 1 from by omega]
    rw [hceilm, hceilm1, Nat.add_sub_cancel_left]
  · -- inside a page: the next record is buffered, no fetch occurs
    have hr1 : (m % P - 1) / P = 0 := Nat.div_eq_of_lt (by omega)
    have hrQ : m % P / P = 0 := Nat.div_eq_of_lt hrP
    have hmul : P * (m / P + 1) = P * (m / P) + P := by ring
    have hceilm : (m + P - 1) / P = m / P + 1 := by
      have h1 : m + P - 1 = P * (m / P + 1) + (m % P - 1) := by omega
      rw [h1, Nat.mul_add_div hP, hr1, Nat.add_zero]
    have hceilm1 : (m + 1 + P - 1) / P = m / P + 1 := by
      have h1 : m + 1 + P - 1 = P * (m / P + 1) + m % P := by omega
      rw [h1, Nat.mul_add_div hP, hrQ, Nat.add_zero]
    have hEeq : fetchedUpTo N P (m + 1) = fetchedUpTo N P m := by
      rw [fetchedUpTo, fetchedUpTo, hceilm, hceilm1]
    have hmE : m < fetchedUpTo N P m := by
      rw [fetchedUpTo, hceilm]
      have h2 : (m / P + 1) * P = P * (m / P) + P := by ring
      omega
    have hbuf : List.range' m (fetchedUpTo N P m - m) =
        m :: List.range' (m + 1) (fetchedUpTo N P m - m - 1) := by
      conv_lhs =>
        rw [show fetchedUpTo N P m - m = fetchedUpTo N P m - m - 1 + 1 from by omega]
      rw [List.range'_succ]
    rw [wbCursor, hbuf]
    simp only [pull]
    rw [wbCursor, hEeq]
    rw [show fetchedUpTo N P m - (m + 1) = fetchedUpTo N P m - m - 1 from by omega]
    rw [hceilm, hceilm1, Nat.sub_self]

/-- Driving the generator `n` pulls over a well-behaved transport, starting
after `m` consumed records with `m + n ≤ N`: the pulls yield records
`m, ..., m+n-1`, the page fetches issued are exactly those that grow the
fetched-page count from `ceil(m/P)` to `ceil((m+n)/P)`, and the generator is
left suspended in the state for `m + n` consumed records. -/
theorem drive_wb (N P : Nat) (hP : 0 < P) :
    ∀ n m, m + n ≤ N →
      drive (wbFetch N P) n (wbCursor N P m) =
        (List.range' m n, (m + n + P - 1) / P - (m + P - 1) / P,
          .more (wbCursor N P (m + n))) := by
  intro n
  induction n with
  | zero =>
    intro m hmn
    simp [drive]
  | succ n ih =>
    intro m hmn
    have hm : m < N := by omega
    have hidx : m + 1 + n = m + (n + 1) := by omega
    have hih := ih (m + 1) (by omega)
    rw [hidx] at hih
    simp only [drive, pull_wb N P m hP hm, hih]
    refine Prod.ext ?_ (Prod.ext ?_ ?_)
    · simp [List.range'_succ]
    · have h1 : (m + P - 1) / P ≤ (m + 1 + P - 1) / P :=
        Nat.div_le_div_right (by omega)
      have h2 : (m + 1 + P - 1) / P ≤ (m + (n + 1) + P - 1) / P :=
        Nat.div_le_div_right (by omega)
      simp only
      omega
    · simp only

/-- C9: the traversal is lazy and pull-based — over a well-behaved transport
with total `N` and page size `P`, a caller that has consumed `n ≤ N` records
has triggered exactly `ceil(n/P)` page fetches: the fetch of page `k+1`
happens only at the pull that first goes past the `(k+1)*P` records of pages
`0..k`, and a caller that stops consuming after `n` records never triggers
any further page fetch. -/
theorem drive_lazy_fetch_count (N P n : Nat) (hP : 0 < P) (hN : 0 < N)
    (hn : n ≤ N) :
    drive (wbFetch N P) n Cursor.start =
      (List.range n, (n + P - 1) / P, .more (wbCursor N P n)) ∧
    (List.range n).length = n := by
  have h0 : fetchedUpTo N P 0 = 0 := by
    rw [fetchedUpTo]
    have h1 : (0 + P - 1) / P = 0 := Nat.div_eq_of_lt (by omega)
    rw [h1, Nat.zero_mul]
    omega
  have hfin0 : decide (N ≤ 0) = false := decide_eq_false (by omega)
  have hstart : wbCursor N P 0 = Cursor.start := by
    rw [wbCursor, Cursor.start, h0, hfin0]
    simp
  have hd := drive_wb N P hP n 0 (by omega)
  rw [hstart] at hd
  have hP0 : (0 + P - 1) / P = 0 := Nat.div_eq_of_lt (by omega)
  rw [Nat.zero_add, hP0, Nat.sub_zero, ← List.range_eq_range'] at hd
  exact ⟨hd, List.length_range n⟩

/-- Witness for C9: 250 matches, page size 100, a caller that stops after 150
records — exactly 2 page fetches have occurred, and the generator is left
suspended without fetching the third page. -/
theorem drive_lazy_fetch_count_witness :
    (drive (wbFetch 250 100) 150 Cursor.start =
      (List.range 150, (150 + 100 - 1) / 100, .more (wbCursor 250 100 150))) ∧
    (List.range 150).length = 150 :=
  drive_lazy_fetch_count 250 100 150 (by decide) (by decide) (by decide)

end GPortal
